import Mathlib

/-!
Shallow embedding of the task-manager backend
(`backend/tools/task_tools.py`, `backend/services/tool_executor.py`,
`backend/routers/chat.py`) and proofs about the spec's claims.

Strings are modelled as `List Char` (`Str`).  The SQLAlchemy session is
modelled as a pair of task lists: `committed` (the database rows) and
`pending` (the session's in-memory view, which queries observe thanks to
autoflush).  `session.commit()` copies `pending` into `committed`;
`session.rollback()` copies `committed` back into `pending`.
Store-assigned ids and `datetime.utcnow()` are passed in as explicit
`fresh`/`now` parameters.  Python exceptions are modelled with `Except`
where they can actually occur (the dispatcher's `try/except`).
-/

namespace TaskApi

abbrev Str := List Char

/-- Python `str.strip()` (restricted to ASCII whitespace, the only kind the
claims exercise). -/
def pyStrip (s : Str) : Str :=
  ((s.dropWhile Char.isWhitespace).reverse.dropWhile Char.isWhitespace).reverse

/-- Lower-casing as PostgreSQL `ILIKE` applies it (ASCII range, which is all
the claims exercise). -/
def lowerStr (s : Str) : Str := s.map Char.toLower

/-- `title.encode('utf-8', errors='ignore').decode('utf-8')` in
`add_task`: on well-formed unicode strings (which Lean `Char` lists always
are, every `Char` being a valid scalar value) this round-trip is the
identity, so it is embedded as such. -/
def utf8Sanitize (s : Str) : Str := s

/-- Does `f` hold of some suffix of the string?  (`%` consumes zero or more
characters.) -/
def anySuffix (f : Str → Bool) : Str → Bool
  | [] => f []
  | c :: s' => f (c :: s') || anySuffix f s'

/-- PostgreSQL `LIKE` pattern matching on already lower-cased operands:
`%` matches any sequence, `_` any single character, backslash escapes the
next character; everything else matches literally.  A pattern ending in a
dangling escape character does not match — in PostgreSQL such a pattern
raises error 22025 instead of being evaluated, which the embedding
captures separately with `likePatternError` at each query site, so the
`['\\'], _` clause below is never consulted by an embedded query. -/
def likeMatch : Str → Str → Bool
  | [], s => s.isEmpty
  | '%' :: p, s => anySuffix (likeMatch p) s
  | '_' :: p, s =>
      match s with
      | [] => false
      | _ :: s' => likeMatch p s'
  | '\\' :: c :: p, s =>
      match s with
      | [] => false
      | d :: s' => c = d && likeMatch p s'
  | ['\\'], _ => false
  | c :: p, s =>
      match s with
      | [] => false
      | d :: s' => c = d && likeMatch p s'

/-- PostgreSQL raises `LIKE pattern must not end with escape character`
(error 22025) when a pattern's left-to-right scan ends in the middle of an
escape sequence, i.e. on a dangling trailing backslash.  A query with such
a pattern raises instead of returning rows. -/
def likePatternError : Str → Bool
  | [] => false
  | [c] => c = '\\'
  | c :: d :: p =>
      if c = '\\' then likePatternError p
      else likePatternError (d :: p)

/-- `column.ilike(pattern)`: case-insensitive LIKE. -/
def ilike (text pattern : Str) : Bool :=
  likeMatch (lowerStr pattern) (lowerStr text)

/-- Python `int(s)`: optional whitespace and sign around a non-empty digit
string; raises `ValueError` (here: `none`) otherwise.  (Python also accepts
underscore digit separators and non-ASCII digits; neither occurs in any
input considered here, and both are mapped to `none`.) -/
def pyInt (s : Str) : Option Int :=
  let s := pyStrip s
  let core : Str → Option Nat := fun ds =>
    if ds.isEmpty || !ds.all Char.isDigit then none
    else some (ds.foldl (fun acc c => acc * 10 + c.toNat - '0'.toNat) 0)
  match s with
  | '-' :: rest => (core rest).map (fun n => -(n : Int))
  | '+' :: rest => (core rest).map (fun n => (n : Int))
  | _ => (core s).map (fun n => (n : Int))

/-- Python truthiness of an optional-string tool parameter: `None` and the
empty string are falsy. -/
def truthy : Option Str → Bool
  | none => false
  | some s => !s.isEmpty

/-- Task record.  Modelled from the spec: `models/task.py` is not present in
the source tree (only imported by `task_tools.py`); fields follow spec §3
`{id: integer (store-assigned, unique), owner_id: string, title, description,
completed, created_at, updated_at}` and the attribute uses in
`task_tools.py`. -/
structure Task where
  id : Nat
  user_id : Str
  title : Str
  description : Option Str
  completed : Bool
  created_at : Nat
  updated_at : Nat
  deriving Repr, DecidableEq

/-- The SQLAlchemy session over the task table: `committed` are the database
rows, `pending` the session view seen by queries (autoflush). -/
structure TaskSession where
  committed : List Task
  pending : List Task
  deriving Repr, DecidableEq

def TaskSession.commit (s : TaskSession) : TaskSession :=
  { committed := s.pending, pending := s.pending }

def TaskSession.rollback (s : TaskSession) : TaskSession :=
  { committed := s.committed, pending := s.committed }

/-- Candidate entry `{id, title, completed}` returned for ambiguous title
matches. -/
structure Candidate where
  id : Nat
  title : Str
  completed : Bool
  deriving Repr, DecidableEq

/-- Result envelope returned by the tools, keyed by its `status` field.
Success payloads keep the task data; human-readable `message` strings are
presentation only and are dropped except for error messages. -/
inductive ToolResult where
  | error (msg : Str)
  | warningDuplicate (existing : Task)
  | successTask (task : Task)
  | successList (tasks : List Task) (count : Nat)
  | successDelete (task_id : Nat) (title : Str)
  | multipleMatches (tasks : List Candidate)
  deriving Repr, DecidableEq

def ToolResult.status : ToolResult → Str
  | .error _ => "error".toList
  | .warningDuplicate _ => "warning".toList
  | .successTask _ => "success".toList
  | .successList _ _ => "success".toList
  | .successDelete _ _ => "success".toList
  | .multipleMatches _ => "multiple_matches".toList

def Task.toCandidate (t : Task) : Candidate :=
  { id := t.id, title := t.title, completed := t.completed }

/-- `add_task(session, user_id, title, description=None)` from
`tools/task_tools.py`.  `fresh` is the store-assigned id, `now` the value of
`datetime.utcnow()`.  The duplicate-lookup query uses the raw lower-cased
title as an `ILIKE` pattern; when that pattern ends in a dangling backslash
PostgreSQL raises error 22025, which the function's `except` branch catches
(rollback + error envelope) — the one exception path of `add_task` that is
reachable in this pure model.  No other modelled operation can raise. -/
def add_task (s : TaskSession) (user_id : Str) (title : Str)
    (description : Option Str) (now fresh : Nat) : ToolResult × TaskSession :=
  let title := if title.isEmpty then title else utf8Sanitize (pyStrip title)
  let description :=
    description.map (fun d => if d.isEmpty then d else utf8Sanitize (pyStrip d))
  if title.isEmpty then
    (.error "Title is required".toList, s)
  else if title.length > 255 then
    (.error "Title must be 255 characters or less".toList, s)
  else if (description.map (fun d => !d.isEmpty && d.length > 1000)).getD false then
    (.error "Description must be 1000 characters or less".toList, s)
  else
    let title_normalized := lowerStr title
    if likePatternError title_normalized then
      -- `session.exec` raises 22025; caught by the `except` branch:
      -- `session.rollback()` then the error envelope.
      (.error "Failed to add task: LIKE pattern must not end with escape character".toList,
        s.rollback)
    else
      match s.pending.find? (fun t =>
          t.user_id = user_id && ilike t.title title_normalized) with
      | some existing => (.warningDuplicate existing, s)
      | none =>
          let new_task : Task :=
            { id := fresh, user_id := user_id, title := title,
              description := description.bind (fun d => if d.isEmpty then none else some d),
              completed := false, created_at := now, updated_at := now }
          let s := { s with pending := s.pending ++ [new_task] }
          let s := s.commit
          (.successTask new_task, s)

/-- `list_tasks(session, user_id, status="all")`: owner-filtered query with
status filter, ordered by `created_at` descending (embedded as a stable
insertion sort on the row order). -/
def sortByCreatedDesc (l : List Task) : List Task :=
  l.foldr (fun t acc => insertDesc t acc) []
where
  insertDesc (t : Task) : List Task → List Task
    | [] => [t]
    | u :: us => if t.created_at ≥ u.created_at then t :: u :: us
                 else u :: insertDesc t us

def list_tasks (s : TaskSession) (user_id : Str) (status : Str) :
    ToolResult × TaskSession :=
  let base := s.pending.filter (fun t => t.user_id = user_id)
  let filtered :=
    if status = "completed".toList then base.filter (fun t => t.completed)
    else if status = "incomplete".toList then base.filter (fun t => !t.completed)
    else base
  let tasks := sortByCreatedDesc filtered
  (.successList tasks tasks.length, s)

/-- `query.first()`: the first row satisfying the predicate, returned as a
zipper `(rows before, row, rows after)` so that the session's subsequent
in-place mutation or deletion of that row object can be expressed. -/
def splitFirst (p : Task → Bool) : List Task → Option (List Task × Task × List Task)
  | [] => none
  | t :: ts =>
      if p t then some ([], t, ts)
      else (splitFirst p ts).map (fun z => (t :: z.1, z.2.1, z.2.2))

/-- Predicate of the by-id lookup `Task.id == int(task_id), Task.user_id ==
user_id` shared by complete/delete/update. -/
def idPred (user_id : Str) (n : Int) (t : Task) : Bool :=
  (t.id : Int) = n && t.user_id = user_id

/-- Predicate of the title-fragment search `Task.user_id == user_id,
Task.title.ilike(f"%{title}%")` shared by complete/delete/update.  Unlike
the duplicate lookup, this pattern always ends in `%` (a trailing backslash
in the fragment escapes that `%` rather than dangling), so the query can
never raise PostgreSQL's 22025 pattern error — see
`fragPattern_no_likePatternError` — and no error branch is modelled. -/
def fragPred (user_id : Str) (frag : Str) (t : Task) : Bool :=
  t.user_id = user_id && ilike t.title ('%' :: frag ++ ['%'])

/-- The by-id branch: `int(task_id)` inside `try/except ValueError`, then
`.first()` on the id + owner query; only runs when `task_id` is truthy. -/
def findById (s : TaskSession) (user_id : Str) (task_id : Option Str) :
    Option (List Task × Task × List Task) :=
  if truthy task_id then
    match pyInt (task_id.getD []) with
    | none => none
    | some n => splitFirst (idPred user_id n) s.pending
  else none

/-- Outcome of the reference-resolution block that the source repeats
verbatim in `complete_task`, `delete_task` and `update_task`: a single
resolved row (as a zipper of the pending list), an ambiguous candidate
list, or no match. -/
inductive Resolution where
  | resolved (pre : List Task) (task : Task) (post : List Task)
  | ambiguous (cands : List Candidate)
  | notFound
  deriving Repr, DecidableEq

/-- Shared resolution: by id first (when truthy), else the `.all()` of the
`ILIKE %fragment%` query, branching on the number of matches. -/
def resolveRef (s : TaskSession) (user_id : Str)
    (task_id frag : Option Str) : Resolution :=
  match findById s user_id task_id with
  | some z => .resolved z.1 z.2.1 z.2.2
  | none =>
      if truthy frag then
        match splitFirst (fragPred user_id (frag.getD [])) s.pending with
        | none => .notFound
        | some (pre, t, post) =>
            match post.filter (fragPred user_id (frag.getD [])) with
            | [] => .resolved pre t post
            | rest => .ambiguous ((t :: rest).map Task.toCandidate)
      else .notFound

/-- `complete_task(session, user_id, task_id=None, title=None)`. -/
def complete_task (s : TaskSession) (user_id : Str)
    (task_id title : Option Str) (now : Nat) : ToolResult × TaskSession :=
  if !truthy task_id && !truthy title then
    (.error "Must provide either task_id or title".toList, s)
  else
    match resolveRef s user_id task_id title with
    | .notFound => (.error "Task not found for this user".toList, s)
    | .ambiguous cands => (.multipleMatches cands, s)
    | .resolved pre task post =>
        let task := { task with completed := true, updated_at := now }
        let s := { s with pending := pre ++ task :: post }
        let s := s.commit
        (.successTask task, s)

/-- `delete_task(session, user_id, task_id=None, title=None)`. -/
def delete_task (s : TaskSession) (user_id : Str)
    (task_id title : Option Str) : ToolResult × TaskSession :=
  if !truthy task_id && !truthy title then
    (.error "Must provide either task_id or title".toList, s)
  else
    match resolveRef s user_id task_id title with
    | .notFound => (.error "Task not found for this user".toList, s)
    | .ambiguous cands => (.multipleMatches cands, s)
    | .resolved pre task post =>
        let s := { s with pending := pre ++ post }
        let s := s.commit
        (.successDelete task.id task.title, s)

/-- The description branch and the final bump/commit of `update_task`,
operating on the resolved row's zipper. -/
def updateDescr (s : TaskSession) (pre : List Task) (task : Task)
    (post : List Task) (description : Option Str) (now : Nat) :
    ToolResult × TaskSession :=
  match description with
  | some d =>
      if d.length > 1000 then
        (.error "Description must be 1000 characters or less".toList, s)
      else
        let task := { task with
          description := if d.isEmpty then none else some (pyStrip d) }
        updateFinish s pre task post now
  | none => updateFinish s pre task post now
where
  /-- `task.updated_at = utcnow(); session.add(task); session.commit()`. -/
  updateFinish (s : TaskSession) (pre : List Task) (task : Task)
      (post : List Task) (now : Nat) : ToolResult × TaskSession :=
    let task := { task with updated_at := now }
    let s := { s with pending := pre ++ task :: post }
    let s := s.commit
    (.successTask task, s)

/-- `update_task(session, user_id, task_id=None, old_title=None, title=None,
description=None)`.  Mirrors the source's control flow exactly: the new
title is validated and written into the session object *before* the
description is validated, and the description-validation error path returns
without `session.rollback()`, leaving the dirty title in `pending`. -/
def update_task (s : TaskSession) (user_id : Str)
    (task_id old_title title description : Option Str) (now : Nat) :
    ToolResult × TaskSession :=
  if !truthy task_id && !truthy old_title then
    (.error "Must provide either task_id or old_title".toList, s)
  else if title.isNone && description.isNone then
    (.error "At least one field (title or description) must be provided".toList, s)
  else
    match resolveRef s user_id task_id old_title with
    | .notFound => (.error "Task not found for this user".toList, s)
    | .ambiguous cands => (.multipleMatches cands, s)
    | .resolved pre task post =>
        match title with
        | some t =>
            if t.isEmpty || t.length > 255 then
              (.error "Title must be between 1 and 255 characters".toList, s)
            else
              let task₁ := { task with title := pyStrip t }
              let s₁ := { s with pending := pre ++ task₁ :: post }
              updateDescr s₁ pre task₁ post description now
        | none => updateDescr s pre task post description now

/-! ## Tool dispatcher (`services/tool_executor.py`) -/

/-- The tool-parameter dictionary handed over by the model.  The dispatcher
only ever reads these six keys, so the `Dict[str, Any]` is embedded as a
record of optional strings (`none` = key absent). -/
structure ToolParams where
  user_id : Option Str := none
  title : Option Str := none
  description : Option Str := none
  status : Option Str := none
  task_id : Option Str := none
  old_title : Option Str := none
  deriving Repr, DecidableEq

/-- Python exceptions that can escape the dispatched calls:
`parameters["key"]` on an absent key, and the explicit
`ValueError(f"Unknown tool: ...")`. -/
inductive PyError where
  | keyError (key : Str)
  | valueError (msg : Str)
  deriving Repr, DecidableEq

/-- `parameters[key]` on the dict: raises `KeyError` when absent. -/
def requiredParam (v : Option Str) (key : Str) : Except PyError Str :=
  match v with
  | none => .error (.keyError key)
  | some x => .ok x

/-- The `try:` body of `execute_tool`: dispatch on the tool name, raising on
unknown names or missing required keys. -/
def execute_tool_inner (s : TaskSession) (tool_name : Str) (p : ToolParams)
    (now fresh : Nat) : Except PyError (ToolResult × TaskSession) :=
  if tool_name = "add_task".toList then do
    let uid ← requiredParam p.user_id "user_id".toList
    let title ← requiredParam p.title "title".toList
    return add_task s uid title p.description now fresh
  else if tool_name = "list_tasks".toList then do
    let uid ← requiredParam p.user_id "user_id".toList
    return list_tasks s uid (p.status.getD "all".toList)
  else if tool_name = "complete_task".toList then do
    let uid ← requiredParam p.user_id "user_id".toList
    return complete_task s uid p.task_id p.title now
  else if tool_name = "delete_task".toList then do
    let uid ← requiredParam p.user_id "user_id".toList
    return delete_task s uid p.task_id p.title
  else if tool_name = "update_task".toList then do
    let uid ← requiredParam p.user_id "user_id".toList
    return update_task s uid p.task_id p.old_title p.title p.description now
  else
    .error (.valueError ("Unknown tool: ".toList ++ tool_name))

/-- `str(e)` for the two exception kinds (`str(KeyError('k'))` renders the
key quoted). -/
def PyError.toStr : PyError → Str
  | .keyError k => '\x27' :: k ++ ['\x27']
  | .valueError m => m

/-- `execute_tool(session, tool_name, parameters)`: the `try/except`
boundary converting every exception into an error envelope — a `ValueError`
as its own message, anything else prefixed with `Tool execution failed:`. -/
def execute_tool (s : TaskSession) (tool_name : Str) (p : ToolParams)
    (now fresh : Nat) : ToolResult × TaskSession :=
  match execute_tool_inner s tool_name p now fresh with
  | .ok r => r
  | .error (.valueError m) => (.error m, s)
  | .error e => (.error ("Tool execution failed: ".toList ++ e.toStr), s)

/-! ## Conversation orchestrator (`routers/chat.py`) -/

/-- Conversation row (`models/conversation.py`); UUIDs are modelled as
`Nat`. -/
structure Conversation where
  id : Nat
  user_id : Str
  created_at : Nat
  updated_at : Nat
  deriving Repr, DecidableEq

/-- Message row (`models/message.py`); `tool_calls` holds the serialized
call/result record opaquely. -/
structure Message where
  id : Nat
  conversation_id : Nat
  role : Str
  content : Str
  tool_calls : Option Str
  created_at : Nat
  deriving Repr, DecidableEq

/-- Stable ascending insertion sort on `created_at`, embedding the query's
`ORDER BY created_at ASC` (row order breaks ties). -/
def sortByCreatedAsc (l : List Message) : List Message :=
  l.foldr insertAsc []
where
  insertAsc (m : Message) : List Message → List Message
    | [] => [m]
    | u :: us => if m.created_at ≤ u.created_at then m :: u :: us
                 else u :: insertAsc m us

/-- Step 2 of `chat_endpoint`: `select(Message).where(conversation_id ==
cid).order_by(created_at.asc()).limit(50)`. -/
def loadHistory (msgs : List Message) (cid : Nat) : List Message :=
  (sortByCreatedAsc (msgs.filter (fun m => m.conversation_id = cid))).take 50

/-- Modelled from the spec: the history window the spec prescribes — `Load
up to 50 most recent messages, oldest first` / `capped to the most recent 50
per conversation` — i.e. the last 50 of the ascending ordering. -/
def specRecentHistory (msgs : List Message) (cid : Nat) : List Message :=
  let sorted := sortByCreatedAsc (msgs.filter (fun m => m.conversation_id = cid))
  sorted.drop (sorted.length - 50)

/-- One transcript entry in Cohere shape. -/
structure CohereMsg where
  role : Str
  message : Str
  deriving Repr, DecidableEq

/-- `format_messages_for_cohere`: map roles to USER/CHATBOT, dropping any
other role. -/
def format_messages_for_cohere (msgs : List Message) : List CohereMsg :=
  msgs.foldr (fun m acc =>
    if m.role = "user".toList then ⟨"USER".toList, m.content⟩ :: acc
    else if m.role = "assistant".toList then ⟨"CHATBOT".toList, m.content⟩ :: acc
    else acc) []

/-- A tool call emitted by the model. -/
structure ToolCall where
  name : Str
  parameters : ToolParams
  deriving Repr, DecidableEq

/-- Outcome of the first model invocation: the network call may raise, or
return text plus tool calls.  It is a function of the transcript the
orchestrator sends. -/
inductive ModelReply where
  | fail
  | reply (text : Str) (tool_calls : List ToolCall)
  deriving Repr, DecidableEq

/-- Outcome of the second model invocation (tool-result consolidation). -/
inductive ModelReply2 where
  | fail
  | reply (text : Str)
  deriving Repr, DecidableEq

/-- Whole persistent state touched by a chat turn.  `conversations` and
`messages` are the committed rows of those tables (the turn only writes
them together with a `session.commit()`); the task table keeps its
committed/pending split because tool calls share the request's session. -/
structure ChatState where
  tasks : TaskSession
  conversations : List Conversation
  messages : List Message
  deriving Repr, DecidableEq

/-- `ChatRequest` body. -/
structure ChatRequest where
  message : Str
  conversation_id : Option Nat
  deriving Repr, DecidableEq

/-- The endpoint's observable outcome: the HTTP error status, or the
response payload. -/
inductive ChatOutcome where
  | ok (text : Str) (conversation_id : Nat) (message_id : Nat)
  | httpError (code : Nat)
  deriving Repr, DecidableEq

/-- Line 130 of `routers/chat.py`:
`tool_params["user_id"] = user_id` — the owner-id injection performed on a
copy of the model-supplied parameters before dispatch. -/
def injectOwner (user_id : Str) (p : ToolParams) : ToolParams :=
  { p with user_id := some user_id }

/-- Step 5: execute the model's tool calls sequentially, injecting the
authenticated `user_id` into each parameter dict; `fresh i` is the
store-assigned id available to the i-th call. -/
def runTools (s : TaskSession) (user_id : Str) (tcs : List ToolCall)
    (now : Nat) (fresh : Nat → Nat) :
    List (ToolCall × ToolResult) × TaskSession :=
  go s tcs 0
where
  go (s : TaskSession) : List ToolCall → Nat →
      List (ToolCall × ToolResult) × TaskSession
    | [], _ => ([], s)
    | tc :: rest, i =>
        let params := injectOwner user_id tc.parameters
        let (r, s') := execute_tool s tc.name params now (fresh i)
        let (rs, s'') := go s' rest (i + 1)
        ((⟨tc.name, params⟩, r) :: rs, s'')

/-- `chat_endpoint` (`routers/chat.py`): auth check, conversation
load/create (a created conversation is committed immediately), history
load, first model call, sequential tool execution, optional second model
call, then the PERSIST step storing both turn messages and bumping the
conversation timestamp in one commit.  `model1` and `model2` are the
language-model oracle; `freshConv`/`freshUser`/`freshAsst` the generated
ids. -/
def chat_endpoint (st : ChatState) (user_id : Str) (req : ChatRequest)
    (token_user_id : Str) (model1 : List CohereMsg → ModelReply)
    (model2 : ModelReply2) (now : Nat) (fresh : Nat → Nat)
    (freshConv freshUser freshAsst : Nat) : ChatOutcome × ChatState :=
  if token_user_id ≠ user_id then (.httpError 403, st)
  else
    match req.conversation_id with
    | some cid =>
        match st.conversations.find? (fun c => c.id = cid && c.user_id = user_id) with
        | none => (.httpError 404, st)
        | some conv => afterConv st user_id req conv model1 model2 now fresh freshUser freshAsst
    | none =>
        let conv : Conversation :=
          { id := freshConv, user_id := user_id, created_at := now, updated_at := now }
        -- session.add(conversation); session.commit()  (before any model call)
        let st := { st with conversations := st.conversations ++ [conv],
                            tasks := st.tasks.commit }
        afterConv st user_id req conv model1 model2 now fresh freshUser freshAsst
where
  afterConv (st : ChatState) (user_id : Str) (req : ChatRequest)
      (conv : Conversation) (model1 : List CohereMsg → ModelReply)
      (model2 : ModelReply2) (now : Nat) (fresh : Nat → Nat)
      (freshUser freshAsst : Nat) : ChatOutcome × ChatState :=
    let transcript := format_messages_for_cohere (loadHistory st.messages conv.id)
    match model1 transcript with
    | .fail => (.httpError 500, st)
    | .reply text tcs =>
        let (results, tasks') := runTools st.tasks user_id tcs now fresh
        let st := { st with tasks := tasks' }
        if tcs.isEmpty then
          persist st req conv text false now freshUser freshAsst
        else
          match model2 with
          | .fail => (.httpError 500, st)
          | .reply text2 =>
              let _ := results
              persist st req conv text2 true now freshUser freshAsst
  /-- Step 6 (PERSIST): store user and assistant messages, bump the
  conversation's `updated_at`, commit once (which also flushes any dirt the
  tool calls left in the task session). -/
  persist (st : ChatState) (req : ChatRequest)
      (conv : Conversation) (text : Str) (hadTools : Bool) (now : Nat)
      (freshUser freshAsst : Nat) : ChatOutcome × ChatState :=
    let userMsg : Message :=
      { id := freshUser, conversation_id := conv.id, role := "user".toList,
        content := req.message, tool_calls := none, created_at := now }
    let asstMsg : Message :=
      { id := freshAsst, conversation_id := conv.id, role := "assistant".toList,
        content := text,
        tool_calls := if hadTools then some "serialized".toList else none,
        created_at := now }
    let st := { st with
      messages := st.messages ++ [userMsg, asstMsg],
      conversations := st.conversations.map (fun c =>
        if c.id = conv.id then { c with updated_at := now } else c),
      tasks := st.tasks.commit }
    (.ok text conv.id freshAsst, st)

/-! ## Helper lemmas -/

/-- Projection used to state properties of `list_tasks` results. -/
def ToolResult.listedTasks : ToolResult → List Task
  | .successList ts _ => ts
  | _ => []

/-- The owner-`v` view of a session: `v`'s rows in the pending and committed
states. -/
def ownerView (s : TaskSession) (v : Str) : List Task × List Task :=
  (s.pending.filter (fun t => t.user_id = v),
   s.committed.filter (fun t => t.user_id = v))

/-- Pointwise replacement of the `user_id` entry in every tool call of a
batch — the shape of an adversarial model run that claims foreign owner
ids. -/
def overwriteUserIds (xs : Nat → Option Str) (tcs : List ToolCall) : List ToolCall :=
  go 0 tcs
where
  go (i : Nat) : List ToolCall → List ToolCall
    | [] => []
    | tc :: r =>
        { tc with parameters := { tc.parameters with user_id := xs i } } :: go (i + 1) r

/-- The row a concrete successful add on an empty store creates. -/
def c8WitnessTask : Task :=
  { id := 1, user_id := "u1".toList, title := "buy milk".toList,
    description := none, completed := false, created_at := 0, updated_at := 0 }

/-- Is the first string a prefix of the second? -/
def headMatch : Str → Str → Bool
  | [], _ => true
  | _ :: _, [] => false
  | c :: n, d :: h => c = d && headMatch n h

/-- Is the first string a contiguous substring of the second? -/
def substrIn (needle : Str) : Str → Bool
  | [] => needle.isEmpty
  | d :: h => headMatch needle (d :: h) || substrIn needle h

/-- The owner-scoped case-insensitive *literal substring* matcher that the
spec's wording describes for title-fragment resolution (to be compared with
the SQL `ILIKE` matcher the code actually uses). -/
def ciSubstrPred (user_id : Str) (frag : Str) (t : Task) : Bool :=
  t.user_id = user_id && substrIn (lowerStr frag) (lowerStr t.title)

/-- A stored row whose title contains a backslash — `ILIKE`'s escape
character. -/
def c7Task : Task :=
  { id := 1, user_id := "u1".toList, title := "a\\b".toList,
    description := none, completed := false, created_at := 0, updated_at := 0 }

/-- A stored row titled `abc`, owned by `u1`. -/
def abcTask : Task :=
  { id := 1, user_id := "u1".toList, title := "abc".toList,
    description := none, completed := false, created_at := 0, updated_at := 0 }

/-- A clean session whose only row is `abcTask`. -/
def abcSession : TaskSession :=
  { committed := [abcTask], pending := [abcTask] }

/-- A stored row titled `axyc`, owned by `u1`. -/
def axycTask : Task :=
  { id := 2, user_id := "u1".toList, title := "axyc".toList,
    description := none, completed := false, created_at := 0, updated_at := 0 }

/-- A clean session whose only row is `axycTask`. -/
def axycSession : TaskSession :=
  { committed := [axycTask], pending := [axycTask] }

/-- The two near-duplicate rows of the spec's ambiguity scenario. -/
def dinnerTask1 : Task :=
  { id := 3, user_id := "u1".toList, title := "make dinner".toList,
    description := none, completed := false, created_at := 2, updated_at := 2 }

def dinnerTask2 : Task :=
  { id := 4, user_id := "u1".toList, title := "mke dinner".toList,
    description := none, completed := true, created_at := 3, updated_at := 3 }

/-- A clean session holding both `dinner` rows. -/
def dinnerSession : TaskSession :=
  { committed := [dinnerTask1, dinnerTask2],
    pending := [dinnerTask1, dinnerTask2] }

/-- A stored row titled `Old`, owned by `u1`. -/
def oldTask : Task :=
  { id := 1, user_id := "u1".toList, title := "Old".toList,
    description := none, completed := false, created_at := 0, updated_at := 0 }

/-- A clean session whose only row is `oldTask`. -/
def oldSession : TaskSession :=
  { committed := [oldTask], pending := [oldTask] }

/-- A 1001-character description, one over the validation limit. -/
def longDescr : Str := List.replicate 1001 'x'

/-- A 51-message conversation history (conversation 7), one message per
tick `0..50`. -/
def c5Messages : List Message :=
  (List.range 51).map (fun i =>
    { id := i, conversation_id := 7, role := "user".toList, content := [],
      tool_calls := none, created_at := i })

/-- An empty persistent state for chat-turn scenarios. -/
def emptyChatState : ChatState :=
  { tasks := { committed := [], pending := [] }, conversations := [],
    messages := [] }

theorem splitFirst_some {p : Task → Bool} {l : List Task}
    {a : List Task} {t : Task} {c : List Task}
    (h : splitFirst p l = some (a, t, c)) :
    l = a ++ t :: c ∧ p t = true ∧ ∀ u ∈ a, p u = false := by
  induction l generalizing a with
  | nil => simp [splitFirst] at h
  | cons x xs ih =>
    rw [splitFirst] at h
    by_cases hx : p x = true
    · rw [if_pos hx] at h
      injection h with h
      injection h with h1 h
      injection h with h2 h3
      subst h1; subst h2; subst h3
      simp [hx]
    · rw [if_neg hx] at h
      cases hxs : splitFirst p xs with
      | none => rw [hxs] at h; simp at h
      | some z =>
        obtain ⟨a', t', c'⟩ := z
        rw [hxs] at h
        injection h with h
        injection h with h1 h
        injection h with h2 h3
        subst h1; subst h2; subst h3
        obtain ⟨rfl, hpt, hall⟩ := ih hxs
        refine ⟨rfl, hpt, ?_⟩
        intro u hu
        rcases List.mem_cons.mp hu with rfl | hu
        · simpa using hx
        · exact hall u hu

theorem splitFirst_none {p : Task → Bool} {l : List Task}
    (h : splitFirst p l = none) : ∀ u ∈ l, p u = false := by
  induction l with
  | nil => simp
  | cons x xs ih =>
    rw [splitFirst] at h
    by_cases hx : p x = true
    · rw [if_pos hx] at h; simp at h
    · rw [if_neg hx] at h
      intro u hu
      rcases List.mem_cons.mp hu with rfl | hu
      · simpa using hx
      · exact ih (by simpa using h) u hu

theorem filter_of_splitFirst_some {p : Task → Bool} {l a c} {t : Task}
    (h : splitFirst p l = some (a, t, c)) :
    l.filter p = t :: c.filter p := by
  obtain ⟨rfl, hpt, hall⟩ := splitFirst_some h
  have ha : a.filter p = [] :=
    List.filter_eq_nil_iff.mpr (by intro u hu; simp [hall u hu])
  simp [List.filter_append, ha, List.filter_cons, hpt]

theorem filter_of_splitFirst_none {p : Task → Bool} {l}
    (h : splitFirst p l = none) : l.filter p = [] :=
  List.filter_eq_nil_iff.mpr (by intro u hu; simp [splitFirst_none h u hu])

/-- `resolveRef` only resolves to rows owned by the requesting user, and
returns them as a decomposition of the pending list. -/
theorem resolveRef_resolved {s : TaskSession} {uid : Str}
    {tid frag : Option Str} {pre post : List Task} {t : Task}
    (h : resolveRef s uid tid frag = .resolved pre t post) :
    s.pending = pre ++ t :: post ∧ t.user_id = uid := by
  unfold resolveRef at h
  split at h
  case h_1 z heq =>
    obtain ⟨a, x, c⟩ := z
    cases h
    unfold findById at heq
    split at heq
    case isTrue =>
      cases hn : pyInt (tid.getD []) with
      | none => rw [hn] at heq; cases heq
      | some n =>
        rw [hn] at heq
        obtain ⟨hdec, hp, _⟩ := splitFirst_some heq
        refine ⟨hdec, ?_⟩
        simp only [idPred, Bool.and_eq_true, decide_eq_true_eq] at hp
        exact hp.2
    case isFalse => cases heq
  case h_2 heq =>
    split at h
    case isTrue =>
      split at h
      case h_1 => cases h
      case h_2 a x c hs =>
        split at h
        case h_1 hrest =>
          cases h
          obtain ⟨hdec, hp, _⟩ := splitFirst_some hs
          refine ⟨hdec, ?_⟩
          simp only [fragPred, Bool.and_eq_true, decide_eq_true_eq] at hp
          exact hp.1
        case h_2 => cases h
    case isFalse => cases h

/-- With no id given, `resolveRef` branches exactly on the number of
`ILIKE %fragment%` matches among the owner's rows. -/
theorem resolveRef_noId_trichotomy (s : TaskSession) (uid : Str) (frag : Str)
    (hf : frag ≠ []) :
    let ms := s.pending.filter (fragPred uid frag)
    (ms = [] → resolveRef s uid none (some frag) = .notFound)
    ∧ (∀ t, ms = [t] → ∃ pre post, s.pending = pre ++ t :: post ∧
        resolveRef s uid none (some frag) = .resolved pre t post)
    ∧ (2 ≤ ms.length →
        resolveRef s uid none (some frag) = .ambiguous (ms.map Task.toCandidate)) := by
  have hfindid : findById s uid none = none := by simp [findById, truthy]
  have htruthy : truthy (some frag) = true := by
    simp [truthy, List.isEmpty_iff, hf]
  intro ms
  refine ⟨?_, ?_, ?_⟩
  · intro hms
    cases hs : splitFirst (fragPred uid frag) s.pending with
    | none =>
      simp [resolveRef, hfindid, htruthy, Option.getD_some, hs]
    | some z =>
      obtain ⟨a, x, c⟩ := z
      have hfil : ms = x :: c.filter (fragPred uid frag) :=
        filter_of_splitFirst_some hs
      rw [hms] at hfil
      cases hfil
  · intro t hms
    cases hs : splitFirst (fragPred uid frag) s.pending with
    | none =>
      exfalso
      have : ms = [] := filter_of_splitFirst_none hs
      rw [hms] at this
      cases this
    | some z =>
      obtain ⟨a, x, c⟩ := z
      have hfil : ms = x :: c.filter (fragPred uid frag) :=
        filter_of_splitFirst_some hs
      rw [hms] at hfil
      injection hfil with h1 h2
      subst h1
      obtain ⟨hdec, _, _⟩ := splitFirst_some hs
      refine ⟨a, c, hdec, ?_⟩
      simp [resolveRef, hfindid, htruthy, Option.getD_some, hs, ← h2]
  · intro hlen
    cases hs : splitFirst (fragPred uid frag) s.pending with
    | none =>
      exfalso
      have : ms = [] := filter_of_splitFirst_none hs
      rw [this] at hlen; simp at hlen
    | some z =>
      obtain ⟨a, x, c⟩ := z
      have hfil : ms = x :: c.filter (fragPred uid frag) :=
        filter_of_splitFirst_some hs
      cases hrest : c.filter (fragPred uid frag) with
      | nil => rw [hrest] at hfil; rw [hfil] at hlen; simp at hlen
      | cons y ys =>
        rw [hrest] at hfil
        simp only [resolveRef, hfindid, htruthy, Option.getD_some, hs, hrest,
          if_pos, hfil]

theorem mem_insertDesc {t x : Task} {l : List Task} :
    x ∈ sortByCreatedDesc.insertDesc t l ↔ x = t ∨ x ∈ l := by
  induction l with
  | nil => simp [sortByCreatedDesc.insertDesc]
  | cons u us ih =>
    rw [sortByCreatedDesc.insertDesc]
    split
    · simp [or_comm, or_assoc, or_left_comm]
    · simp only [List.mem_cons, ih]
      tauto

theorem mem_sortByCreatedDesc {x : Task} {l : List Task} :
    x ∈ sortByCreatedDesc l ↔ x ∈ l := by
  induction l with
  | nil => simp [sortByCreatedDesc]
  | cons u us ih =>
    simp only [sortByCreatedDesc, List.foldr_cons] at ih ⊢
    rw [mem_insertDesc, ih, List.mem_cons]

/-- Every possible session outcome of `add_task`: untouched, rolled back
(the caught 22025 pattern error), or a committed append of a row owned by
the caller. -/
theorem add_task_session_cases (s : TaskSession) (A title : Str)
    (d : Option Str) (now fresh : Nat) :
    (add_task s A title d now fresh).2 = s ∨
    (add_task s A title d now fresh).2 = s.rollback ∨
    ∃ nt : Task, nt.user_id = A ∧
      (add_task s A title d now fresh).2 =
        TaskSession.commit { s with pending := s.pending ++ [nt] } := by
  simp only [add_task]
  repeat' split
  all_goals try (left; rfl)
  all_goals try (right; left; rfl)
  all_goals right; right; refine ⟨_, ?_, rfl⟩; rfl

/-- Every possible session outcome of `complete_task`: untouched, or a
committed in-place replacement of one of the caller's rows by another row
owned by the caller. -/
theorem complete_task_session_cases (s : TaskSession) (A : Str)
    (tid frag : Option Str) (now : Nat) :
    (complete_task s A tid frag now).2 = s ∨
    ∃ (pre post : List Task) (t t' : Task), s.pending = pre ++ t :: post ∧
      t.user_id = A ∧ t'.user_id = A ∧
      (complete_task s A tid frag now).2 =
        TaskSession.commit { s with pending := pre ++ t' :: post } := by
  simp only [complete_task]
  split
  · left; rfl
  · split
    · left; rfl
    · left; rfl
    · case h_3 pre t post heq =>
        obtain ⟨hdec, huser⟩ := resolveRef_resolved heq
        right
        refine ⟨pre, post, t, _, hdec, huser, ?_, rfl⟩
        exact huser

/-- Every possible session outcome of `delete_task`: untouched, or a
committed removal of one of the caller's rows. -/
theorem delete_task_session_cases (s : TaskSession) (A : Str)
    (tid frag : Option Str) :
    (delete_task s A tid frag).2 = s ∨
    ∃ (pre post : List Task) (t : Task), s.pending = pre ++ t :: post ∧ t.user_id = A ∧
      (delete_task s A tid frag).2 =
        TaskSession.commit { s with pending := pre ++ post } := by
  simp only [delete_task]
  split
  · left; rfl
  · split
    · left; rfl
    · left; rfl
    · case h_3 pre t post heq =>
        obtain ⟨hdec, huser⟩ := resolveRef_resolved heq
        right
        exact ⟨pre, post, t, hdec, huser, rfl⟩

theorem updateDescr_session_cases (s : TaskSession) (pre post : List Task)
    (task : Task) (d : Option Str) (now : Nat) :
    (updateDescr s pre task post d now).2 = s ∨
    ∃ t' : Task, t'.user_id = task.user_id ∧
      (updateDescr s pre task post d now).2 =
        TaskSession.commit { s with pending := pre ++ t' :: post } := by
  simp only [updateDescr, updateDescr.updateFinish]
  repeat' split
  all_goals try (left; rfl)
  all_goals right; refine ⟨_, ?_, rfl⟩; rfl

/-- Every possible session outcome of `update_task`: untouched, a *dirty*
(uncommitted) in-place replacement of one of the caller's rows — the
missing-rollback path — or a committed one. -/
theorem update_task_session_cases (s : TaskSession) (A : Str)
    (tid old_title title d : Option Str) (now : Nat) :
    (update_task s A tid old_title title d now).2 = s ∨
    ∃ (pre post : List Task) (t t' : Task), s.pending = pre ++ t :: post ∧
      t.user_id = A ∧ t'.user_id = A ∧
      ((update_task s A tid old_title title d now).2 =
          { s with pending := pre ++ t' :: post } ∨
        (update_task s A tid old_title title d now).2 =
          TaskSession.commit { s with pending := pre ++ t' :: post }) := by
  simp only [update_task]
  split
  · left; rfl
  · split
    · left; rfl
    · split
      · left; rfl
      · left; rfl
      · case h_3 pre t post heq =>
          obtain ⟨hdec, huser⟩ := resolveRef_resolved heq
          split
          · case h_1 nt hne =>
              split
              · left; rfl
              · rcases updateDescr_session_cases
                  { s with pending := pre ++ { t with title := pyStrip nt } :: post }
                  pre post { t with title := pyStrip nt } d now with hsame | ⟨t', ht', heq'⟩
                · right
                  exact ⟨pre, post, t, { t with title := pyStrip nt },
                    hdec, huser, huser, .inl hsame⟩
                · right
                  refine ⟨pre, post, t, t', hdec, huser, ?_, .inr heq'⟩
                  rw [ht']; exact huser
          · rcases updateDescr_session_cases s pre post t d now with hsame | ⟨t', ht', heq'⟩
            · left; exact hsame
            · right
              refine ⟨pre, post, t, t', hdec, huser, ?_, .inr heq'⟩
              rw [ht']; exact huser

theorem ownerView_dirty_middle {s : TaskSession} {A v : Str}
    {pre post : List Task} {t t' : Task} (hv : v ≠ A)
    (hpend : s.pending = pre ++ t :: post) (ht : t.user_id = A)
    (ht' : t'.user_id = A) :
    ownerView { s with pending := pre ++ t' :: post } v = ownerView s v := by
  have hne : ¬(t.user_id = v) := by rw [ht]; exact fun h => hv h.symm
  have hne' : ¬(t'.user_id = v) := by rw [ht']; exact fun h => hv h.symm
  unfold ownerView
  rw [hpend]
  simp [List.filter_append, List.filter_cons, hne, hne']

theorem ownerView_commit_middle {s : TaskSession} {A v : Str}
    {pre post : List Task} {t t' : Task} (hv : v ≠ A)
    (hclean : s.committed.filter (fun x => x.user_id = v) =
      s.pending.filter (fun x => x.user_id = v))
    (hpend : s.pending = pre ++ t :: post) (ht : t.user_id = A)
    (ht' : t'.user_id = A) :
    ownerView (TaskSession.commit { s with pending := pre ++ t' :: post }) v =
      ownerView s v := by
  have hne : ¬(t.user_id = v) := by rw [ht]; exact fun h => hv h.symm
  have hne' : ¬(t'.user_id = v) := by rw [ht']; exact fun h => hv h.symm
  unfold ownerView TaskSession.commit
  rw [hclean, hpend]
  simp [List.filter_append, List.filter_cons, hne, hne']

theorem ownerView_commit_append {s : TaskSession} {A v : Str} {nt : Task}
    (hv : v ≠ A)
    (hclean : s.committed.filter (fun x => x.user_id = v) =
      s.pending.filter (fun x => x.user_id = v))
    (ht : nt.user_id = A) :
    ownerView (TaskSession.commit { s with pending := s.pending ++ [nt] }) v =
      ownerView s v := by
  have hne : ¬(nt.user_id = v) := by rw [ht]; exact fun h => hv h.symm
  unfold ownerView TaskSession.commit
  rw [hclean]
  simp [List.filter_append, List.filter_cons, hne]

theorem ownerView_commit_erase {s : TaskSession} {A v : Str}
    {pre post : List Task} {t : Task} (hv : v ≠ A)
    (hclean : s.committed.filter (fun x => x.user_id = v) =
      s.pending.filter (fun x => x.user_id = v))
    (hpend : s.pending = pre ++ t :: post) (ht : t.user_id = A) :
    ownerView (TaskSession.commit { s with pending := pre ++ post }) v =
      ownerView s v := by
  have hne : ¬(t.user_id = v) := by rw [ht]; exact fun h => hv h.symm
  unfold ownerView TaskSession.commit
  rw [hclean, hpend]
  simp [List.filter_append, List.filter_cons, hne]

theorem ownerView_rollback {s : TaskSession} {v : Str}
    (hclean : s.committed.filter (fun x => x.user_id = v) =
      s.pending.filter (fun x => x.user_id = v)) :
    ownerView s.rollback v = ownerView s v := by
  unfold ownerView TaskSession.rollback
  rw [hclean]

theorem list_tasks_owner (s : TaskSession) (A status : Str) :
    ∀ t ∈ (list_tasks s A status).1.listedTasks, t.user_id = A := by
  intro t ht
  simp only [list_tasks, ToolResult.listedTasks] at ht
  rw [mem_sortByCreatedDesc] at ht
  have hbase : t ∈ s.pending.filter (fun t => t.user_id = A) := by
    split at ht
    · exact List.mem_of_mem_filter ht
    · split at ht
      · exact List.mem_of_mem_filter ht
      · exact ht
  have := (List.mem_filter.mp hbase).2
  simpa using this

theorem updateDescr_success_owner (s : TaskSession) (pre post : List Task)
    (task : Task) (d : Option Str) (now : Nat) :
    ∀ t, (updateDescr s pre task post d now).1 = .successTask t →
      t.user_id = task.user_id := by
  intro t h
  simp only [updateDescr, updateDescr.updateFinish] at h
  repeat' split at h
  all_goals cases h
  all_goals rfl

theorem complete_task_success_owner (s : TaskSession) (A : Str)
    (tid frag : Option Str) (now : Nat) :
    ∀ t, (complete_task s A tid frag now).1 = .successTask t →
      t.user_id = A := by
  intro t h
  simp only [complete_task] at h
  split at h
  · cases h
  · split at h
    · cases h
    · cases h
    · case h_3 pre tk post heq =>
        obtain ⟨_, huser⟩ := resolveRef_resolved heq
        injection h with h
        subst h
        exact huser

theorem update_task_success_owner (s : TaskSession) (A : Str)
    (tid old_title title d : Option Str) (now : Nat) :
    ∀ t, (update_task s A tid old_title title d now).1 = .successTask t →
      t.user_id = A := by
  intro t h
  rcases hres : resolveRef s A tid old_title with ⟨pre, tk, post⟩ | cands | _ <;>
    simp only [update_task, hres] at h <;>
    repeat' split at h
  all_goals first
    | cases h
    | (rw [updateDescr_success_owner _ _ _ _ _ _ t h]
       exact (resolveRef_resolved hres).2)

theorem add_task_duplicate_owner (s : TaskSession) (A title : Str)
    (d : Option Str) (now fresh : Nat) :
    ∀ t, (add_task s A title d now fresh).1 = .warningDuplicate t →
      t ∈ s.pending ∧ t.user_id = A := by
  intro t h
  simp only [add_task] at h
  repeat' split at h
  all_goals cases h
  rename_i existing heq
  refine ⟨List.mem_of_find?_eq_some heq, ?_⟩
  have := List.find?_some heq
  simp only [Bool.and_eq_true, decide_eq_true_eq] at this
  exact this.1

/-- **C1** (owner isolation): `list_tasks(A)` only returns rows with
`user_id = A`; each mutating tool leaves every other owner's pending and
committed rows untouched; and the row a mutating tool resolves and reports
on is owned by `A`. -/
theorem owner_isolation_c1 (s : TaskSession) (A v : Str) (hv : v ≠ A)
    (hclean : s.committed.filter (fun t => t.user_id = v) =
      s.pending.filter (fun t => t.user_id = v))
    (status addTitle : Str)
    (addDescr task_id frag old_title newTitle newDescr : Option Str)
    (now fresh : Nat) :
    (∀ t ∈ (list_tasks s A status).1.listedTasks, t.user_id = A)
    ∧ ownerView (add_task s A addTitle addDescr now fresh).2 v = ownerView s v
    ∧ ownerView (complete_task s A task_id frag now).2 v = ownerView s v
    ∧ ownerView (delete_task s A task_id frag).2 v = ownerView s v
    ∧ ownerView (update_task s A task_id old_title newTitle newDescr now).2 v =
        ownerView s v
    ∧ (∀ t, (complete_task s A task_id frag now).1 = .successTask t → t.user_id = A)
    ∧ (∀ t, (update_task s A task_id old_title newTitle newDescr now).1 =
        .successTask t → t.user_id = A)
    ∧ (∀ t, (add_task s A addTitle addDescr now fresh).1 = .warningDuplicate t →
        t.user_id = A) := by
  refine ⟨list_tasks_owner s A status, ?_, ?_, ?_, ?_,
    complete_task_success_owner s A task_id frag now,
    update_task_success_owner s A task_id old_title newTitle newDescr now,
    fun t h => (add_task_duplicate_owner s A addTitle addDescr now fresh t h).2⟩
  · rcases add_task_session_cases s A addTitle addDescr now fresh with
      h | h | ⟨nt, hnt, h⟩
    · rw [h]
    · rw [h]; exact ownerView_rollback hclean
    · rw [h]; exact ownerView_commit_append hv hclean hnt
  · rcases complete_task_session_cases s A task_id frag now with
      h | ⟨pre, post, t, t', hpend, ht, ht', h⟩
    · rw [h]
    · rw [h]; exact ownerView_commit_middle hv hclean hpend ht ht'
  · rcases delete_task_session_cases s A task_id frag with
      h | ⟨pre, post, t, hpend, ht, h⟩
    · rw [h]
    · rw [h]; exact ownerView_commit_erase hv hclean hpend ht
  · rcases update_task_session_cases s A task_id old_title newTitle newDescr now with
      h | ⟨pre, post, t, t', hpend, ht, ht', h | h⟩
    · rw [h]
    · rw [h]; exact ownerView_dirty_middle hv hpend ht ht'
    · rw [h]; exact ownerView_commit_middle hv hclean hpend ht ht'

/-- Witness for `owner_isolation_c1` at a concrete input. -/
theorem owner_isolation_c1_witness :
    ownerView (add_task { committed := [], pending := [] } "u1".toList
      "buy milk".toList none 0 1).2 "u2".toList =
      ownerView { committed := [], pending := [] } "u2".toList :=
  (owner_isolation_c1 { committed := [], pending := [] } "u1".toList "u2".toList
    (by decide) rfl "all".toList "buy milk".toList none none none none none none
    0 1).2.1

theorem runTools_go_overwrite (A : Str) (now : Nat) (fresh : Nat → Nat)
    (xs : Nat → Option Str) :
    ∀ (tcs : List ToolCall) (s : TaskSession) (i : Nat),
      runTools.go A now fresh s (overwriteUserIds.go xs i tcs) i =
        runTools.go A now fresh s tcs i := by
  intro tcs
  induction tcs with
  | nil => intro s i; rfl
  | cons tc rest ih =>
    intro s i
    simp only [overwriteUserIds.go, runTools.go]
    rw [show injectOwner A { tc.parameters with user_id := xs i } =
      injectOwner A tc.parameters from rfl]
    rw [ih]

/-- **C2** (owner-id overwrite noninterference): the injected parameter
dict always carries the authenticated id; whatever `user_id` the model put
in its parameters, the dispatched call — and a whole batch of dispatched
calls — behaves identically. -/
theorem owner_overwrite_c2 (A : Str) (p : ToolParams) (x : Option Str)
    (s : TaskSession) (name : Str) (now fresh : Nat) :
    (injectOwner A p).user_id = some A
    ∧ injectOwner A { p with user_id := x } = injectOwner A p
    ∧ execute_tool s name (injectOwner A { p with user_id := x }) now fresh
        = execute_tool s name (injectOwner A p) now fresh
    ∧ ∀ (tcs : List ToolCall) (xs : Nat → Option Str) (freshF : Nat → Nat),
        runTools s A (overwriteUserIds xs tcs) now freshF =
          runTools s A tcs now freshF :=
  ⟨rfl, rfl, rfl, fun tcs xs freshF => runTools_go_overwrite A now freshF xs tcs s 0⟩

theorem status_cases (r : ToolResult) :
    r.status = "success".toList ∨ r.status = "error".toList ∨
    r.status = "warning".toList ∨ r.status = "multiple_matches".toList := by
  cases r
  · right; left; rfl
  · right; right; left; rfl
  · left; rfl
  · left; rfl
  · left; rfl
  · right; right; right; rfl

/-- **C9** (dispatcher totality): for *every* tool name string and *every*
parameter record, `execute_tool` returns an envelope whose status is one of
the four statuses; whenever the dispatched code raises (the `Except.error`
cases of `execute_tool_inner` — the unknown-tool `ValueError` and the
missing-key `KeyError`s of the five real tools), the `try/except` converts
the exception into an error envelope with the session untouched instead of
propagating it; and in particular a name outside the five known tools
yields the `Unknown tool` error envelope. -/
theorem dispatcher_totality_c9 (s : TaskSession) (name : Str) (p : ToolParams)
    (now fresh : Nat) :
    ((execute_tool s name p now fresh).1.status = "success".toList ∨
     (execute_tool s name p now fresh).1.status = "error".toList ∨
     (execute_tool s name p now fresh).1.status = "warning".toList ∨
     (execute_tool s name p now fresh).1.status = "multiple_matches".toList)
    ∧ (∀ e, execute_tool_inner s name p now fresh = .error e →
        ∃ msg, execute_tool s name p now fresh = (.error msg, s))
    ∧ (name ∉ ["add_task".toList, "list_tasks".toList, "complete_task".toList,
        "delete_task".toList, "update_task".toList] →
      execute_tool s name p now fresh =
        (.error ("Unknown tool: ".toList ++ name), s)) := by
  refine ⟨status_cases _, ?_, ?_⟩
  · intro e he
    unfold execute_tool
    rw [he]
    cases e with
    | keyError k => exact ⟨_, rfl⟩
    | valueError m => exact ⟨m, rfl⟩
  · intro hname
    simp only [List.mem_cons, List.not_mem_nil, or_false, not_or] at hname
    obtain ⟨h1, h2, h3, h4, h5⟩ := hname
    unfold execute_tool execute_tool_inner
    rw [if_neg h1, if_neg h2, if_neg h3, if_neg h4, if_neg h5]

/-- Witness for `dispatcher_totality_c9`, exercising both exception paths:
a known tool (`add_task`) whose required `user_id` key is missing, and the
concrete unknown name `bogus`. -/
theorem dispatcher_totality_c9_witness :
    (∃ msg, execute_tool { committed := [], pending := [] }
        "add_task".toList {} 0 0 =
      (.error msg, { committed := [], pending := [] }))
    ∧ execute_tool { committed := [], pending := [] } "bogus".toList {} 0 0 =
        (.error ("Unknown tool: ".toList ++ "bogus".toList),
          { committed := [], pending := [] }) :=
  ⟨(dispatcher_totality_c9 { committed := [], pending := [] }
      "add_task".toList {} 0 0).2.1 (.keyError "user_id".toList) rfl,
   (dispatcher_totality_c9 { committed := [], pending := [] }
      "bogus".toList {} 0 0).2.2 (by decide)⟩

theorem add_task_result_cases (s : TaskSession) (A title : Str) (d : Option Str)
    (now fresh : Nat) :
    (∃ msg, (add_task s A title d now fresh).1 = .error msg) ∨
    (∃ ex, add_task s A title d now fresh = (.warningDuplicate ex, s)) ∨
    (∃ nt, nt.completed = false ∧ add_task s A title d now fresh =
      (.successTask nt,
        { committed := s.pending ++ [nt], pending := s.pending ++ [nt] })) := by
  simp only [add_task]
  repeat' split
  all_goals first
    | (left; exact ⟨_, rfl⟩)
    | (right; left; exact ⟨_, rfl⟩)
    | (right; right; exact ⟨_, rfl, rfl⟩)

/-- **C8 counterexample**: the title `ab\` passes every validation bound of
the claim (non-empty after cleaning, length 3 ≤ 255, no description, empty
store so no duplicate), yet `add_task` returns an error-status envelope and
inserts nothing: its lower-cased `ILIKE` duplicate-lookup pattern ends in
the escape character, the query raises PostgreSQL error 22025, and the
`except` branch rolls back and reports the failure.  The claim's
`exactly when` is therefore false of the program. -/
theorem add_validation_c8_counterexample :
    pyStrip "ab\\".toList ≠ []
    ∧ (pyStrip "ab\\".toList).length ≤ 255
    ∧ (add_task { committed := [], pending := [] } "u1".toList
        "ab\\".toList none 1 2).1.status = "error".toList
    ∧ (add_task { committed := [], pending := [] } "u1".toList
        "ab\\".toList none 1 2).2.pending = [] := by decide

set_option maxRecDepth 8000 in
/-- **C8 amended** (add validation boundaries): `add_task` returns an
error-status envelope exactly when the cleaned title is empty or longer
than 255 characters, or the cleaned description is present, non-empty and
longer than 1000 characters, or the lower-cased cleaned title ends in a
dangling backslash (the `ILIKE` escape character, which makes the
duplicate-lookup query raise and the `except` branch report the failure
after rollback); on success the new row is committed with
`completed = false` and returned; a 255-character title succeeds on an
empty store and a 256-character one fails. -/
theorem add_validation_c8 (s : TaskSession) (A title : Str) (d : Option Str)
    (now fresh : Nat) :
    ((add_task s A title d now fresh).1.status = "error".toList ↔
      ((if title.isEmpty then title else utf8Sanitize (pyStrip title)) = [] ∨
       255 < (if title.isEmpty then title else utf8Sanitize (pyStrip title)).length ∨
       (∃ y, d = some y ∧
         (if y.isEmpty then y else utf8Sanitize (pyStrip y)) ≠ [] ∧
         1000 < (if y.isEmpty then y else utf8Sanitize (pyStrip y)).length) ∨
       likePatternError (lowerStr
         (if title.isEmpty then title else utf8Sanitize (pyStrip title))) = true))
    ∧ (∀ t, (add_task s A title d now fresh).1 = .successTask t →
        t.completed = false ∧
        (add_task s A title d now fresh).2 =
          { committed := s.pending ++ [t], pending := s.pending ++ [t] })
    ∧ (add_task { committed := [], pending := [] } A
        (List.replicate 255 'a') none now fresh).1.status = "success".toList
    ∧ (add_task { committed := [], pending := [] } A
        (List.replicate 256 'a') none now fresh).1.status = "error".toList := by
  refine ⟨?_, ?_, rfl, rfl⟩
  · simp only [add_task]
    by_cases h1 : (if title.isEmpty then title else utf8Sanitize (pyStrip title)).isEmpty
    · rw [if_pos h1]
      exact iff_of_true rfl (Or.inl (List.isEmpty_iff.mp h1))
    · rw [if_neg h1]
      by_cases h2 : (if title.isEmpty then title else utf8Sanitize (pyStrip title)).length > 255
      · rw [if_pos h2]
        exact iff_of_true rfl (Or.inr (Or.inl h2))
      · rw [if_neg h2]
        by_cases h3 : ((d.map (fun x => if x.isEmpty then x else utf8Sanitize (pyStrip x))).map
            (fun x => !x.isEmpty && decide (x.length > 1000))).getD false = true
        · rw [if_pos h3]
          refine iff_of_true rfl (Or.inr (Or.inr (Or.inl ?_)))
          cases d with
          | none => simp at h3
          | some y =>
            simp at h3
            refine ⟨y, rfl, ?_, ?_⟩
            · simpa using h3.1
            · simpa using h3.2
        · rw [if_neg h3]
          by_cases h4 : likePatternError (lowerStr
              (if title.isEmpty then title else utf8Sanitize (pyStrip title))) = true
          · rw [if_pos h4]
            exact iff_of_true rfl (Or.inr (Or.inr (Or.inr h4)))
          · rw [if_neg h4]
            constructor
            · intro hstat
              exfalso
              split at hstat
              · simp only [ToolResult.status] at hstat
                exact absurd hstat (by decide)
              · simp only [ToolResult.status] at hstat
                exact absurd hstat (by decide)
            · intro hcond
              exfalso
              rcases hcond with hc | hc | ⟨y, rfl, hye, hyl⟩ | hc
              · exact h1 (List.isEmpty_iff.mpr hc)
              · exact h2 hc
              · apply h3
                simp only [Option.map_map]
                simp
                exact ⟨by simpa using hye, by simpa using hyl⟩
              · exact h4 hc
  · intro t h
    rcases add_task_result_cases s A title d now fresh with
      ⟨m, he⟩ | ⟨ex, he⟩ | ⟨nt, hc, he⟩
    · rw [he] at h; simp at h
    · rw [he] at h; simp at h
    · rw [he] at h
      simp only at h
      injection h with h
      subst h
      exact ⟨hc, by rw [he]⟩

/-- Witness for `add_validation_c8`: a concrete successful add on an empty
store. -/
theorem add_validation_c8_witness :
    c8WitnessTask.completed = false ∧
    (add_task { committed := [], pending := [] } "u1".toList
      "buy milk".toList none 0 1).2 =
      { committed := [] ++ [c8WitnessTask], pending := [] ++ [c8WitnessTask] } :=
  (add_validation_c8 { committed := [], pending := [] } "u1".toList
    "buy milk".toList none 0 1).2.1 c8WitnessTask (by decide)

theorem char_toNat_ofNat (n : Nat) (h : n.isValidChar) : (Char.ofNat n).toNat = n := by
  simp only [Char.ofNat, h, dif_pos, Char.ofNatAux, Char.toNat, UInt32.toNat,
    BitVec.toNat_ofNatLt]

theorem toLower_idem (c : Char) : c.toLower.toLower = c.toLower := by
  unfold Char.toLower
  by_cases h : c.toNat ≥ 65 ∧ c.toNat ≤ 90
  · rw [if_pos h]
    have hv : (c.toNat + 32).isValidChar := Or.inl (by omega)
    rw [char_toNat_ofNat _ hv]
    rw [if_neg (by omega)]
  · rw [if_neg h, if_neg h]

theorem lowerStr_idem (s : Str) : lowerStr (lowerStr s) = lowerStr s := by
  simp only [lowerStr, List.map_map, Function.comp]
  exact List.map_congr_left (fun c _ => toLower_idem c)

theorem toLower_eq_backslash {c : Char} (h : c.toLower = '\\') : c = '\\' := by
  by_cases hc : c.toNat ≥ 65 ∧ c.toNat ≤ 90
  · exfalso
    have hn := congrArg Char.toNat h
    unfold Char.toLower at hn
    rw [if_pos hc] at hn
    have hv : (c.toNat + 32).isValidChar := Or.inl (by omega)
    rw [char_toNat_ofNat _ hv] at hn
    have : c.toNat + 32 = 92 := by simpa using hn
    omega
  · unfold Char.toLower at h
    rwa [if_neg hc] at h

theorem backslash_not_mem_lowerStr {s : Str} (h : '\\' ∉ s) :
    '\\' ∉ lowerStr s := by
  intro hmem
  obtain ⟨c, hc, he⟩ := List.mem_map.mp hmem
  exact h (toLower_eq_backslash he ▸ hc)

theorem anySuffix_of_head {f : Str → Bool} {s : Str} (h : f s = true) :
    anySuffix f s = true := by
  cases s with
  | nil => simpa [anySuffix] using h
  | cons c s' => simp [anySuffix, h]

/-- A backslash-free string `ILIKE`-matches itself (used for the duplicate
lookup, whose pattern is the lower-cased title with no `%` wrapping). -/
theorem likeMatch_self : ∀ {s : Str}, '\\' ∉ s → likeMatch s s = true := by
  intro s
  induction s with
  | nil => intro _; rfl
  | cons c p ih =>
    intro h
    have hp : '\\' ∉ p := fun hc => h (List.mem_cons_of_mem _ hc)
    have hc : c ≠ '\\' := fun hc => h (hc ▸ List.mem_cons_self c p)
    by_cases h1 : c = '%'
    · subst h1
      show anySuffix (likeMatch p) ('%' :: p) = true
      have : anySuffix (likeMatch p) p = true := anySuffix_of_head (ih hp)
      simp [anySuffix, this]
    · by_cases h2 : c = '_'
      · subst h2
        show likeMatch ('_' :: p) ('_' :: p) = true
        simpa [likeMatch] using ih hp
      · show likeMatch (c :: p) (c :: p) = true
        rw [likeMatch.eq_def]
        split
        · rename_i heq; simp at heq
        · rename_i heq; injection heq with ha hb; exact absurd ha h1
        · rename_i heq; injection heq with ha hb; exact absurd ha h2
        · rename_i heq; injection heq with ha hb; exact absurd ha hc
        · rename_i heq; injection heq with ha hb; exact absurd ha hc
        · rename_i heq
          injection heq with ha hb
          subst ha; subst hb
          simp [ih hp]

/-- A backslash-free pattern never triggers the 22025 pattern error. -/
theorem likePatternError_of_not_mem : ∀ {s : Str}, '\\' ∉ s →
    likePatternError s = false := by
  have key : ∀ n (s : Str), s.length ≤ n → '\\' ∉ s →
      likePatternError s = false := by
    intro n
    induction n with
    | zero =>
      intro s hs _
      have : s = [] := List.eq_nil_of_length_eq_zero (Nat.le_zero.mp hs)
      subst this
      rfl
    | succ n ih =>
      intro s hs h
      match s with
      | [] => rfl
      | [c] =>
        have hc : c ≠ '\\' := fun hcc => h (hcc ▸ List.mem_cons_self c [])
        simp [likePatternError, hc]
      | c :: d :: p =>
        have hc : c ≠ '\\' := fun hcc => h (hcc ▸ List.mem_cons_self c (d :: p))
        rw [likePatternError, if_neg hc]
        exact ih (d :: p) (by simp at hs ⊢; omega)
          (fun hm => h (List.mem_cons_of_mem _ hm))
  intro s h
  exact key s.length s le_rfl h

/-- A pattern ending in a non-backslash character never triggers the 22025
pattern error: the scan consumes the final character either alone or as the
escaped half of a pair, never as a dangling escape. -/
theorem likePatternError_append_last {c : Char} (hc : c ≠ '\\') :
    ∀ s : Str, likePatternError (s ++ [c]) = false := by
  have key : ∀ n (s : Str), s.length ≤ n → likePatternError (s ++ [c]) = false := by
    intro n
    induction n with
    | zero =>
      intro s hs
      have : s = [] := List.eq_nil_of_length_eq_zero (Nat.le_zero.mp hs)
      subst this
      simp [likePatternError, hc]
    | succ n ih =>
      intro s hs
      match s with
      | [] => simp [likePatternError, hc]
      | [x] =>
        by_cases hx : x = '\\'
        · simp [likePatternError, hx]
        · simp [likePatternError, hx, hc]
      | x :: y :: s'' =>
        rw [List.cons_append, List.cons_append, likePatternError]
        by_cases hx : x = '\\'
        · rw [if_pos hx]
          exact ih s'' (by simp at hs; omega)
        · rw [if_neg hx]
          have := ih (y :: s'') (by simp at hs ⊢; omega)
          simpa using this
  intro s
  exact key s.length s le_rfl

/-- The `%fragment%` pattern of the title searches always ends in `%`, so
those queries can never raise the 22025 pattern error. -/
theorem fragPattern_no_likePatternError (frag : Str) :
    likePatternError ('%' :: frag ++ ['%']) = false := by
  have := likePatternError_append_last (by decide : ('%' : Char) ≠ '\\')
    ('%' :: frag)
  simpa using this

/-- **C7 counterexample**: with an existing task titled `a\b`, adding the
*identical* title `a\b` does not report a duplicate — the backslash in the
`ILIKE` pattern acts as an escape character, the lookup misses, and a second
row is inserted with status `success`. -/
theorem add_duplicate_c7_counterexample :
    lowerStr "a\\b".toList = lowerStr c7Task.title
    ∧ (add_task { committed := [c7Task], pending := [c7Task] }
        "u1".toList "a\\b".toList none 1 2).1.status = "success".toList
    ∧ (add_task { committed := [c7Task], pending := [c7Task] }
        "u1".toList "a\\b".toList none 1 2).2.pending.length = 2 := by decide

/-- **C7 amended** (add duplicate guard): when the cleaned title passes
validation, contains no backslash, and is case-insensitively identical to
the title of some task of the same owner, `add_task` inserts nothing (the
session is returned unchanged) and returns a `warning` duplicate envelope
carrying an existing owned task. -/
theorem add_duplicate_c7 (s : TaskSession) (A title : Str) (d : Option Str)
    (now fresh : Nat)
    (h0 : ¬title.isEmpty = true)
    (h1 : ¬(utf8Sanitize (pyStrip title)).isEmpty = true)
    (h2 : ¬(utf8Sanitize (pyStrip title)).length > 255)
    (h3 : ¬((d.map (fun x => if x.isEmpty then x else utf8Sanitize (pyStrip x))).map
        (fun x => !x.isEmpty && decide (x.length > 1000))).getD false = true)
    (hnb : '\\' ∉ pyStrip title)
    (hex : ∃ ex ∈ s.pending, ex.user_id = A ∧
      lowerStr ex.title = lowerStr (pyStrip title)) :
    ∃ ex ∈ s.pending, ex.user_id = A ∧
      add_task s A title d now fresh = (.warningDuplicate ex, s) := by
  obtain ⟨ex, hmem, hold, htit⟩ := hex
  have hpred : (fun t => decide (t.user_id = A) &&
      ilike t.title (lowerStr (utf8Sanitize (pyStrip title)))) ex = true := by
    have hlike : ilike ex.title (lowerStr (utf8Sanitize (pyStrip title))) = true := by
      show likeMatch (lowerStr (lowerStr (utf8Sanitize (pyStrip title))))
        (lowerStr ex.title) = true
      rw [htit]
      show likeMatch (lowerStr (lowerStr (pyStrip title))) (lowerStr (pyStrip title)) = true
      rw [lowerStr_idem]
      exact likeMatch_self (backslash_not_mem_lowerStr hnb)
    simp [hold, hlike]
  have hsome : (s.pending.find? (fun t => decide (t.user_id = A) &&
      ilike t.title (lowerStr (utf8Sanitize (pyStrip title))))).isSome :=
    List.find?_isSome.mpr ⟨ex, hmem, hpred⟩
  obtain ⟨ex', hfind⟩ := Option.isSome_iff_exists.mp hsome
  have hp' := List.find?_some hfind
  simp only [Bool.and_eq_true, decide_eq_true_eq] at hp'
  have h4 : ¬likePatternError (lowerStr (utf8Sanitize (pyStrip title))) = true :=
    fun hcontra => Bool.false_ne_true
      ((likePatternError_of_not_mem (backslash_not_mem_lowerStr hnb)).symm.trans
        hcontra)
  refine ⟨ex', List.mem_of_find?_eq_some hfind, hp'.1, ?_⟩
  simp only [add_task, if_neg h0, if_neg h1, if_neg h2, if_neg h3, if_neg h4, hfind]

/-- Witness for `add_duplicate_c7`: adding `ABC` when the owner already has
`abc` reports the duplicate. -/
theorem add_duplicate_c7_witness :
    ∃ ex ∈ abcSession.pending, ex.user_id = "u1".toList ∧
      add_task abcSession "u1".toList "ABC".toList none 1 2 =
        (.warningDuplicate ex, abcSession) :=
  add_duplicate_c7 abcSession "u1".toList "ABC".toList none 1 2 (by decide)
    (by decide) (by decide) (by decide) (by decide)
    ⟨abcTask, List.mem_cons_self _ _, rfl, by decide⟩

/-- **C10** (implicit LIKE-wildcard leakage): the duplicate lookup and the
title-fragment search pass unescaped strings to `ilike`, so (a) there are
case-insensitively distinct title pairs for which `add_task` reports a
duplicate (`a_c` vs the stored `abc`), and (b) there are fragments (`a%c`)
on which complete/delete/update resolve and operate on a task (`axyc`)
whose title does not contain the fragment as a literal substring. -/
theorem like_wildcard_c10 :
    (lowerStr "a_c".toList ≠ lowerStr abcTask.title
      ∧ (add_task abcSession "u1".toList "a_c".toList none 1 2).1 =
          .warningDuplicate abcTask
      ∧ (add_task abcSession "u1".toList "a_c".toList none 1 2).2 = abcSession)
    ∧ (substrIn (lowerStr "a%c".toList) (lowerStr axycTask.title) = false
      ∧ (complete_task axycSession "u1".toList none (some "a%c".toList) 5).1.status =
          "success".toList
      ∧ (delete_task axycSession "u1".toList none (some "a%c".toList)).1.status =
          "success".toList
      ∧ (update_task axycSession "u1".toList none (some "a%c".toList)
          (some "New".toList) none 5).1.status = "success".toList) := by decide

/-- **C6 counterexample**: with the single stored task `abc`, the fragment
`%` matches *zero* titles as a case-insensitive literal substring, so the
claim as stated demands `not_found`; the code's `ILIKE %%%` query matches
the task and `complete_task` succeeds. -/
theorem reference_trichotomy_c6_counterexample :
    (abcSession.pending.filter (ciSubstrPred "u1".toList "%".toList)).length = 0
    ∧ (complete_task abcSession "u1".toList none (some "%".toList) 5).1.status =
        "success".toList := by decide

/-- **C6 amended** (reference-resolution trichotomy): with no id given and a
non-empty fragment, complete/delete/update branch exactly on the number of
owner rows matched by the case-insensitive SQL `LIKE` pattern `%fragment%`
(wildcards `%`/`_` active) — zero matches give the not-found error, exactly
one resolves that task and operates on it, and two or more return
`multiple_matches` carrying every candidate in stored order. -/
theorem reference_trichotomy_c6 (s : TaskSession) (A frag : Str) (hf : frag ≠ [])
    (now : Nat) (newTitle newDescr : Option Str)
    (hupd : ¬(newTitle.isNone && newDescr.isNone) = true) :
    (s.pending.filter (fragPred A frag) = [] →
      complete_task s A none (some frag) now =
        (.error "Task not found for this user".toList, s)
      ∧ delete_task s A none (some frag) =
        (.error "Task not found for this user".toList, s)
      ∧ update_task s A none (some frag) newTitle newDescr now =
        (.error "Task not found for this user".toList, s))
    ∧ (∀ t, s.pending.filter (fragPred A frag) = [t] →
      ∃ pre post, s.pending = pre ++ t :: post
        ∧ resolveRef s A none (some frag) = .resolved pre t post
        ∧ complete_task s A none (some frag) now =
          (.successTask { t with completed := true, updated_at := now },
            TaskSession.commit { s with pending :=
              pre ++ { t with completed := true, updated_at := now } :: post })
        ∧ delete_task s A none (some frag) =
          (.successDelete t.id t.title,
            TaskSession.commit { s with pending := pre ++ post }))
    ∧ (2 ≤ (s.pending.filter (fragPred A frag)).length →
      complete_task s A none (some frag) now =
        (.multipleMatches ((s.pending.filter (fragPred A frag)).map Task.toCandidate), s)
      ∧ delete_task s A none (some frag) =
        (.multipleMatches ((s.pending.filter (fragPred A frag)).map Task.toCandidate), s)
      ∧ update_task s A none (some frag) newTitle newDescr now =
        (.multipleMatches ((s.pending.filter (fragPred A frag)).map Task.toCandidate), s)) := by
  have htr := resolveRef_noId_trichotomy s A frag hf
  have hcond : (!truthy (none : Option Str) && !truthy (some frag)) = false := by
    simp [truthy, List.isEmpty_iff, hf]
  refine ⟨?_, ?_, ?_⟩
  · intro hms
    have hres := htr.1 hms
    refine ⟨?_, ?_, ?_⟩
    · simp [complete_task, hcond, hres]
    · simp [delete_task, hcond, hres]
    · simp only [update_task, hcond, Bool.false_eq_true, if_false]
      rw [if_neg hupd]
      simp [hres]
  · intro t hms
    obtain ⟨pre, post, hdec, hres⟩ := htr.2.1 t hms
    refine ⟨pre, post, hdec, hres, ?_, ?_⟩
    · simp [complete_task, hcond, hres]
    · simp [delete_task, hcond, hres]
  · intro hlen
    have hres := htr.2.2 hlen
    refine ⟨?_, ?_, ?_⟩
    · simp [complete_task, hcond, hres]
    · simp [delete_task, hcond, hres]
    · simp only [update_task, hcond, Bool.false_eq_true, if_false]
      rw [if_neg hupd]
      simp [hres]

/-- Witness for `reference_trichotomy_c6`: the spec's own ambiguity
scenario — fragment `dinner` against `make dinner` / `mke dinner`. -/
theorem reference_trichotomy_c6_witness :
    complete_task dinnerSession "u1".toList none (some "dinner".toList) 5 =
      (.multipleMatches ((dinnerSession.pending.filter
        (fragPred "u1".toList "dinner".toList)).map Task.toCandidate),
        dinnerSession)
    ∧ delete_task dinnerSession "u1".toList none (some "dinner".toList) =
      (.multipleMatches ((dinnerSession.pending.filter
        (fragPred "u1".toList "dinner".toList)).map Task.toCandidate),
        dinnerSession)
    ∧ update_task dinnerSession "u1".toList none (some "dinner".toList)
        (some "x".toList) none 5 =
      (.multipleMatches ((dinnerSession.pending.filter
        (fragPred "u1".toList "dinner".toList)).map Task.toCandidate),
        dinnerSession) :=
  (reference_trichotomy_c6 dinnerSession "u1".toList "dinner".toList (by decide)
    5 (some "x".toList) none (by decide)).2.2 (by decide)

set_option maxRecDepth 8000 in
/-- **C3** (mutating-operation atomicity, failing input): `update_task` on
the stored row `Old` with a valid new title and a 1001-character
description returns an error envelope, but has already written the new
title into the session without rolling it back — the pending state carries
`New` while the committed state still has `Old`, and the next
`session.commit()` of the request (the chat turn's PERSIST step) persists
the partial update. -/
theorem update_atomicity_c3 :
    (update_task oldSession "u1".toList (some "1".toList) none
      (some "New".toList) (some longDescr) 5).1.status = "error".toList
    ∧ (update_task oldSession "u1".toList (some "1".toList) none
        (some "New".toList) (some longDescr) 5).2.pending =
        [{ oldTask with title := "New".toList }]
    ∧ (update_task oldSession "u1".toList (some "1".toList) none
        (some "New".toList) (some longDescr) 5).2.committed = [oldTask]
    ∧ ((update_task oldSession "u1".toList (some "1".toList) none
        (some "New".toList) (some longDescr) 5).2.commit).committed =
        [{ oldTask with title := "New".toList }] := by decide

/-- **C5** (history window, failing input): on a conversation with 51
messages (`created_at` 0..50) the query `ORDER BY created_at ASC LIMIT 50`
replays the 50 *oldest* messages (0..49), while the spec's window — the 50
most recent presented oldest-first — is 1..50; the newest message is
dropped from the model context. -/
theorem history_window_c5 :
    (loadHistory c5Messages 7).map (fun m => m.created_at) = List.range 50
    ∧ (specRecentHistory c5Messages 7).map (fun m => m.created_at) =
        (List.range 50).map (fun i => i + 1)
    ∧ loadHistory c5Messages 7 ≠ specRecentHistory c5Messages 7 := by decide

/-- **C4 counterexample**: a turn with no `conversation_id` whose first
model call fails returns an HTTP 500 error, yet the freshly created
conversation row was already committed — the turn did not "write
nothing". -/
theorem chat_turn_c4_counterexample :
    (chat_endpoint emptyChatState "u1".toList
      { message := "hi".toList, conversation_id := none } "u1".toList
      (fun _ => .fail) .fail 5 (fun _ => 0) 42 100 101).1 = .httpError 500
    ∧ (chat_endpoint emptyChatState "u1".toList
        { message := "hi".toList, conversation_id := none } "u1".toList
        (fun _ => .fail) .fail 5 (fun _ => 0) 42 100 101).2.conversations =
        [{ id := 42, user_id := "u1".toList, created_at := 5, updated_at := 5 }]
    ∧ (chat_endpoint emptyChatState "u1".toList
        { message := "hi".toList, conversation_id := none } "u1".toList
        (fun _ => .fail) .fail 5 (fun _ => 0) 42 100 101).2 ≠ emptyChatState := by
  decide

theorem afterConv_error (st : ChatState) (uid : Str) (req : ChatRequest)
    (conv : Conversation) (m1 : List CohereMsg → ModelReply) (m2 : ModelReply2)
    (now : Nat) (fresh : Nat → Nat) (fu fa : Nat) (code : Nat)
    (h : (chat_endpoint.afterConv st uid req conv m1 m2 now fresh fu fa).1 =
      .httpError code) :
    (chat_endpoint.afterConv st uid req conv m1 m2 now fresh fu fa).2.messages =
      st.messages
    ∧ (chat_endpoint.afterConv st uid req conv m1 m2 now fresh fu fa).2.conversations =
      st.conversations := by
  simp only [chat_endpoint.afterConv] at h ⊢
  cases hm1 : m1 (format_messages_for_cohere (loadHistory st.messages conv.id)) with
  | fail =>
    simp only [hm1] at h ⊢
    first
      | trivial
      | exact ⟨rfl, rfl⟩
  | reply text tcs =>
    simp only [hm1] at h ⊢
    by_cases htcs : tcs.isEmpty = true
    · rw [if_pos htcs] at h
      simp only [chat_endpoint.persist] at h
      cases h
    · rw [if_neg htcs] at h ⊢
      cases m2 with
      | fail =>
        first
          | trivial
          | exact ⟨rfl, rfl⟩
      | reply t2 =>
        simp only [chat_endpoint.persist] at h
        cases h

/-- **C4 amended** (no partial persistence on turn failure): every chat
turn that returns an HTTP error persists no user or assistant message;
however a conversation created at the start of the turn is already
committed when a later step fails (and task mutations committed by
executed tools likewise persist), so the persistent state is not
necessarily unchanged. -/
theorem chat_turn_c4 (st : ChatState) (uid tok : Str) (req : ChatRequest)
    (m1 : List CohereMsg → ModelReply) (m2 : ModelReply2) (now : Nat)
    (fresh : Nat → Nat) (fc fu fa : Nat) (code : Nat)
    (h : (chat_endpoint st uid req tok m1 m2 now fresh fc fu fa).1 =
      .httpError code) :
    (chat_endpoint st uid req tok m1 m2 now fresh fc fu fa).2.messages =
      st.messages
    ∧ ((chat_endpoint st uid req tok m1 m2 now fresh fc fu fa).2.conversations =
        st.conversations ∨
      (chat_endpoint st uid req tok m1 m2 now fresh fc fu fa).2.conversations =
        st.conversations ++
          [{ id := fc, user_id := uid, created_at := now, updated_at := now }]) := by
  simp only [chat_endpoint] at h ⊢
  by_cases htok : tok ≠ uid
  · rw [if_pos htok] at h ⊢
    exact ⟨by first | rfl | trivial, Or.inl (by first | rfl | trivial)⟩
  · rw [if_neg htok] at h ⊢
    cases hreq : req.conversation_id with
    | some cid =>
      simp only [hreq] at h ⊢
      cases hfind : List.find? (fun c => decide (c.id = cid) && decide (c.user_id = uid))
          st.conversations with
      | none =>
        simp only [hfind] at h ⊢
        exact ⟨by first | rfl | trivial, Or.inl (by first | rfl | trivial)⟩
      | some conv =>
        simp only [hfind] at h ⊢
        obtain ⟨h1, h2⟩ := afterConv_error _ _ _ _ _ _ _ _ _ _ _ h
        exact ⟨h1, Or.inl h2⟩
    | none =>
      simp only [hreq] at h ⊢
      obtain ⟨h1, h2⟩ := afterConv_error _ _ _ _ _ _ _ _ _ _ _ h
      exact ⟨h1, Or.inr h2⟩

/-- Witness for `chat_turn_c4`: the failed turn of the counterexample
stores no message. -/
theorem chat_turn_c4_witness :
    (chat_endpoint emptyChatState "u1".toList
      { message := "hi".toList, conversation_id := none } "u1".toList
      (fun _ => .fail) .fail 5 (fun _ => 0) 42 100 101).2.messages =
      emptyChatState.messages
    ∧ ((chat_endpoint emptyChatState "u1".toList
        { message := "hi".toList, conversation_id := none } "u1".toList
        (fun _ => .fail) .fail 5 (fun _ => 0) 42 100 101).2.conversations =
        emptyChatState.conversations ∨
      (chat_endpoint emptyChatState "u1".toList
        { message := "hi".toList, conversation_id := none } "u1".toList
        (fun _ => .fail) .fail 5 (fun _ => 0) 42 100 101).2.conversations =
        emptyChatState.conversations ++
          [{ id := 42, user_id := "u1".toList, created_at := 5, updated_at := 5 }]) :=
  chat_turn_c4 emptyChatState "u1".toList "u1".toList
    { message := "hi".toList, conversation_id := none }
    (fun _ => .fail) .fail 5 (fun _ => 0) 42 100 101 500 (by decide)

end TaskApi
